import Mathlib

/-!
Shallow embedding of `src/scripts/data_gen.py` (the synthetic-data generator of
the delivery-efficiency dashboard).

Modelling conventions:

* Python floats are modelled as rationals (`ℚ`); the generator's arithmetic is
  elementary (+, *, min/max, floor) and exact over `ℚ`.
* The seeded pseudo-random streams (`np.random.seed(42)` / `random.seed(42)`)
  are modelled by a `Tape`: one rational stream per call site.  Uniform core
  draws are rationals `u` (admissible when `0 ≤ u < 1`), standard-normal draws
  are unconstrained rationals `z`.  Fixing the seed fixes the `Tape`.
* Two sources of run-to-run variation in the script are *not* fixed by the two
  seed calls and are kept separate in `Ext`:
  - `fake.sentence()` draws from Faker's own `random.Random` instance, which
    the script never seeds (`Faker.seed` is never called), modelled by the
    stream `Ext.sentence`;
  - `list(set(...))` enumerates a CPython `set` of strings in an order
    determined by the per-process randomized string hash (`PYTHONHASHSEED`),
    modelled by enumerating the distinct elements ordered by an arbitrary
    hash-rank function `Ext.hashRank`.
* The wall clock is read many times (`datetime.now()`); all reads are modelled
  by one fixed `Clock` (the claims fix the generation instant).  Calendar
  facts derived from `now` (hour, weekday / month / day of `now - i` days) are
  fields of `Clock`; a date value `now - i` days is modelled by the rational
  `nowSec - i * 86400` (epoch seconds).
* `int(x)` truncates toward zero (`pyInt`).  `round(x, 1)` / `round(x)` are
  modelled with `round` on `ℚ` (`round1` / `Int.round`); Python uses banker's
  rounding, which agrees except on exact ties, none of which the claims
  depend on.
* Event timestamps are written as fixed-width `"%Y-%m-%d %H:%M:%S"` strings
  and the table is sorted on that string column; for this format string order
  coincides with chronological order of the second-truncated instant, so the
  timestamp is modelled directly as `⌊epoch seconds⌋ : ℤ`.
* `DataFrame.pivot` sorts the resulting row index and column labels
  lexicographically (it unstacks a sorted index); `pivotRows` / `pivotCols`
  reproduce this with an explicit code-point insertion sort.
-/

namespace DeliveryGen

/-! ### Python / numpy primitives -/

/-- `int(x)`: truncation toward zero. -/
def pyInt (x : ℚ) : ℤ := if 0 ≤ x then ⌊x⌋ else -⌊-x⌋

/-- `round(x, 1)` (see header note on banker's rounding). -/
def round1 (x : ℚ) : ℚ := (round (10 * x) : ℤ) / 10

/-- `np.random.uniform(a, b)` from a core draw `u ∈ [0,1)`. -/
def unif (a b u : ℚ) : ℚ := a + u * (b - a)

/-- `np.random.randint(a, b)` (half-open) from a core draw `u ∈ [0,1)`. -/
def randint (a b : ℤ) (u : ℚ) : ℤ := a + ⌊u * ((b : ℚ) - (a : ℚ))⌋

/-- `np.random.normal(mu, sigma)` from a standard-normal draw `z`. -/
def npNormal (mu sigma z : ℚ) : ℚ := mu + sigma * z

/-- `max(lo, min(hi, x))`, the clamping idiom of the script. -/
def clamp (lo hi x : ℚ) : ℚ := max lo (min hi x)

/-- Weighted categorical selection by cumulative weights: both
`random.choices(items, weights)` (at `x = u * total_weight`) and
`np.random.choice(items, p=probs)` (at `x = u`, total 1) select the first
item whose running cumulative weight exceeds the scaled draw. -/
def pickCum {α : Type} : List (α × ℚ) → ℚ → α → α
  | [], _, dflt => dflt
  | (a, w) :: rest, x, dflt => if x < w then a else pickCum rest (x - w) dflt

/-- `random.choice(seq)`: uniform index `⌊u * len(seq)⌋`. -/
def pyChoice (l : List String) (u : ℚ) : String := l.getD (⌊u * (l.length : ℚ)⌋).toNat ""

/-! ### Code-point string order (Python `str` comparison, used by `pivot`) -/

def chLe : List Char → List Char → Bool
  | [], _ => true
  | _ :: _, [] => false
  | a :: as, b :: bs =>
    if a.toNat < b.toNat then true
    else if b.toNat < a.toNat then false
    else chLe as bs

def strLeB (a b : String) : Bool := chLe a.data b.data

def strInsert (x : String) : List String → List String
  | [] => [x]
  | y :: ys => if strLeB y x then y :: strInsert x ys else x :: y :: ys

/-- Ascending insertion sort by code-point order. -/
def strSort (l : List String) : List String := l.foldr strInsert []

/-! ### CPython `list(set(xs))` model -/

def firstSeenAux : List String → List String → List String
  | [], acc => acc.reverse
  | x :: xs, acc => if x ∈ acc then firstSeenAux xs acc else firstSeenAux xs (x :: acc)

/-- The distinct elements of `xs` in first-occurrence order. -/
def firstSeen (l : List String) : List String := firstSeenAux l []

def hashInsert (h : String → Nat) (x : String) : List String → List String
  | [] => [x]
  | y :: ys => if h y ≤ h x then y :: hashInsert h x ys else x :: y :: ys

def hashSort (h : String → Nat) (l : List String) : List String := l.foldr (hashInsert h) []

/-- `list(set(xs))` for strings: the distinct elements of `xs`, enumerated in
an order determined by the interpreter's (per-process randomized) string
hash, modelled as ordering by the rank function `h`. -/
def setList (h : String → Nat) (xs : List String) : List String := hashSort h (firstSeen xs)

/-! ### Random tape, external nondeterminism, clock -/

/-- One stream per random call site of the script, all determined by the two
seed calls (`np.random.seed(42)`, `random.seed(42)`).  Indices are the loop
counters at the call site. -/
structure Tape where
  cityU : Nat → ℚ
  latZ : Nat → ℚ
  lonZ : Nat → ℚ
  statusU : Nat → ℚ
  zoneU : Nat → ℚ
  maintU : Nat → ℚ
  perfBaseU : Nat → ℚ
  perfNoiseU : Nat → ℚ
  speedZ : Nat → ℚ
  uptimeZ : Nat → ℚ
  fuelZ : Nat → ℚ
  distU : Nat → ℚ
  loadNoiseU : Nat → ℚ
  idleBaseU : Nat → ℚ
  idleU : Nat → Nat → ℚ
  idleZ : Nat → Nat → ℚ
  whU : Nat → ℚ
  zoneTotU : Nat → ℚ
  flowU : Nat → Nat → ℚ
  evHoursU : Nat → ℚ
  evTypeU : Nat → ℚ
  evDevU : Nat → ℚ

/-- Run-to-run variation *not* fixed by the script's two seed calls:
Faker's own unseeded RNG (`fake.sentence()`) and the hash-randomized
`set` iteration order. -/
structure Ext where
  sentence : Nat → String
  hashRank : String → Nat

/-- The fixed generation instant and the calendar facts the script derives
from it.  `weekdayAgo i` is `(now - i days).weekday()` (Monday = 0). -/
structure Clock where
  nowSec : ℚ
  hour : Nat
  weekdayAgo : Nat → Fin 7
  monthAgo : Nat → Nat
  dayAgo : Nat → Nat

/-! ### Device roster -/

structure CityInfo where
  lat : ℚ
  lon : ℚ
  weight : ℚ
  zones : List String
deriving DecidableEq

/-- The `cities` dict (Python dicts preserve insertion order). -/
def cityTable : List (String × CityInfo) :=
  [ ("New York", ⟨40.7128, -74.0060, 0.35,
      ["Manhattan", "Brooklyn", "Queens", "Bronx", "Staten Island"]⟩)
  , ("Los Angeles", ⟨34.0522, -118.2437, 0.25,
      ["Downtown", "Westside", "San Fernando", "San Gabriel", "Harbor"]⟩)
  , ("Chicago", ⟨41.8781, -87.6298, 0.15,
      ["North", "South", "West", "East", "Central"]⟩)
  , ("Houston", ⟨29.7604, -95.3698, 0.15,
      ["Northside", "Southside", "East End", "Westside", "Downtown"]⟩)
  , ("Phoenix", ⟨33.4484, -112.0740, 0.10,
      ["North Valley", "South Mountain", "East Valley", "West Valley", "Downtown"]⟩) ]

def cityDefault : String × CityInfo := ("", ⟨0, 0, 0, []⟩)

def numDevices : Nat := 75

def statusNames : List String := ["Moving", "Idling", "On-route", "Inactive"]

/-- Status distribution by wall-clock hour bucket. -/
def statusProbs (hour : Nat) : List ℚ :=
  if 6 ≤ hour ∧ hour < 10 then [0.6, 0.15, 0.2, 0.05]
  else if 10 ≤ hour ∧ hour < 16 then [0.5, 0.25, 0.2, 0.05]
  else if 16 ≤ hour ∧ hour < 20 then [0.65, 0.1, 0.2, 0.05]
  else [0.2, 0.1, 0.1, 0.6]

def pad3 (i : Nat) : String :=
  if i < 10 then "00" ++ toString i else if i < 100 then "0" ++ toString i else toString i

/-- `f'D{i:03d}'`. -/
def deviceId (i : Nat) : String := "D" ++ pad3 i

structure Device where
  device_id : String
  city : String
  lat : ℚ
  lon : ℚ
  status : String
  zone : String
  /-- The `randint(0, 180)` draw; the stored `last_maintenance` string is
  `(now - this many days).strftime('%Y-%m-%d')`, and re-parsing it in the
  performance stage recovers exactly this day count. -/
  last_maintenance_days : ℤ
deriving DecidableEq

def deviceDefault : Device := ⟨"", "", 0, 0, "", "", 0⟩

/-- The device with sequence number `i` (1-based), as built in the roster
loop of the script. -/
def mkDevice (t : Tape) (c : Clock) (i : Nat) : Device :=
  let cityPair := pickCum (cityTable.map fun p => (p, p.2.weight))
      (t.cityU i * (cityTable.map fun p => p.2.weight).sum) cityDefault
  let info := cityPair.2
  { device_id := deviceId i
  , city := cityPair.1
  , lat := info.lat + npNormal 0 0.1 (t.latZ i)
  , lon := info.lon + npNormal 0 0.1 (t.lonZ i)
  , status := pickCum (statusNames.zip (statusProbs c.hour)) (t.statusU i) ""
  , zone := pyChoice info.zones (t.zoneU i)
  , last_maintenance_days := randint 0 180 (t.maintU i) }

/-- The device roster (`devices`), the shared entity list. -/
def roster (t : Tape) (c : Clock) : List Device :=
  (List.range' 1 numDevices).map (mkDevice t c)

/-! ### Performance table -/

def cityFactor : String → ℚ
  | "New York" => 1.2
  | "Los Angeles" => 1.1
  | "Chicago" => 1.0
  | "Houston" => 0.9
  | "Phoenix" => 0.8
  | _ => 0

def statusFactor : String → ℚ
  | "Moving" => 1.1
  | "On-route" => 1.0
  | "Idling" => 0.7
  | "Inactive" => 0.1
  | _ => 0

structure Perf where
  device_id : String
  total_deliveries : ℤ
  avg_speed : ℚ
  uptime_percent : ℚ
  fuel_efficiency : ℚ
  distance_traveled : ℤ
deriving DecidableEq

def mkPerf (t : Tape) (c : Clock) (i : Nat) : Perf :=
  let d := mkDevice t c i
  let baseDeliveries := randint 5 50 (t.perfBaseU i)
  let totalDeliveries :=
    pyInt ((baseDeliveries : ℚ) * cityFactor d.city * statusFactor d.status
      * unif 0.8 1.2 (t.perfNoiseU i))
  let speed := clamp 10 65 (npNormal 35 10 (t.speedZ i))
  let uptime := 95 - (d.last_maintenance_days : ℚ) / 10
  { device_id := d.device_id
  , total_deliveries := totalDeliveries
  , avg_speed := round1 speed
  , uptime_percent := round1 (clamp 70 99 (uptime + npNormal 0 3 (t.uptimeZ i)))
  , fuel_efficiency := round1 (npNormal 8.5 1.5 (t.fuelZ i))
  , distance_traveled := round ((totalDeliveries : ℚ) * unif 5 15 (t.distU i)) }

def perf (t : Tape) (c : Clock) : List Perf :=
  (List.range' 1 numDevices).map (mkPerf t c)

/-! ### Daily loads -/

def weekdayPattern : List ℚ := [1.0, 1.1, 1.2, 1.1, 1.0, 0.7, 0.5]

/-- Full weekday names, Monday first (`weekday() = 0` is Monday; `%A` is the
full name of the weekday). -/
def days : List String :=
  ["Monday", "Tuesday", "Wednesday", "Thursday", "Friday", "Saturday", "Sunday"]

structure DayLoad where
  /-- The date value `now - i days`, as epoch seconds. -/
  date : ℚ
  loads : ℤ
  week : String
  day_of_week : String
  is_weekend : Bool
deriving DecidableEq

def mkLoad (t : Tape) (c : Clock) (i : Nat) : DayLoad :=
  let wd : Nat := c.weekdayAgo i
  let baseLoad : ℚ := 100 + (i : ℚ) * 0.5
  let daily1 := baseLoad * weekdayPattern.getD wd 0
  let daily2 := daily1 * unif 0.9 1.1 (t.loadNoiseU i)
  let daily3 :=
    if c.monthAgo i = 12 ∧ (c.dayAgo i = 24 ∨ c.dayAgo i = 25 ∨ c.dayAgo i = 31) then
      daily2 * 1.5
    else if c.monthAgo i = 7 ∧ c.dayAgo i = 4 then daily2 * 0.7
    else daily2
  { date := c.nowSec - (i : ℚ) * 86400
  , loads := pyInt daily3
  , week := if i < 7 then "current" else if i < 14 then "last" else "older"
  , day_of_week := days.getD wd ""
  , is_weekend := decide (5 ≤ wd) }

def loads (t : Tape) (c : Clock) : List DayLoad :=
  (List.range 28).map (mkLoad t c)

/-! ### Idle heatmap -/

def cityIdleBase : String → ℚ
  | "New York" => 45
  | "Los Angeles" => 60
  | "Chicago" => 50
  | "Houston" => 55
  | "Phoenix" => 65
  | _ => 0

def dayFactor : String → ℚ
  | "Monday" => 1.1
  | "Tuesday" => 1.0
  | "Wednesday" => 0.9
  | "Thursday" => 1.0
  | "Friday" => 1.2
  | "Saturday" => 1.3
  | "Sunday" => 1.5
  | _ => 0

structure HeatRec where
  device_id : String
  day : String
  idle_minutes : ℤ
deriving DecidableEq

/-- One long-format heatmap record: device `i` (1-based), weekday index `j`
(0-based into `days`). -/
def mkHeat (t : Tape) (c : Clock) (i j : Nat) : HeatRec :=
  let d := mkDevice t c i
  let base : ℚ := cityIdleBase d.city + (randint (-15) 15 (t.idleBaseU i) : ℚ)
  let day := days.getD j ""
  let idle1 : ℚ :=
    if day = "Saturday" ∨ day = "Sunday" then base * unif 1.2 1.5 (t.idleU i j)
    else base * unif 0.9 1.1 (t.idleU i j)
  let idle2 := idle1 * dayFactor day
  let idle3 := clamp 0 180 (idle2 + npNormal 0 10 (t.idleZ i j))
  { device_id := d.device_id, day := day, idle_minutes := pyInt idle3 }

/-- `heatmap_data`: the first 50 roster devices × the 7 weekdays, in loop
order. -/
def heatRecs (t : Tape) (c : Clock) : List HeatRec :=
  (List.range' 1 50).flatMap fun i => (List.range 7).map fun j => mkHeat t c i j

/-- Row index of `DataFrame.pivot`: distinct `device_id`s, sorted ascending. -/
def pivotRows (rs : List HeatRec) : List String := strSort (rs.map (·.device_id)).dedup

/-- Column labels of `DataFrame.pivot`: distinct `day`s, sorted ascending. -/
def pivotCols (rs : List HeatRec) : List String := strSort (rs.map (·.day)).dedup

/-- The cell of the pivoted table at row `r`, column `c` (the unique matching
long-format record, when present). -/
def pivotCell (rs : List HeatRec) (r c : String) : Option ℤ :=
  (rs.find? fun x => x.device_id == r && x.day == c).map (·.idle_minutes)

/-- The pivoted `heat_df` as a row-major grid. -/
def pivotTable (rs : List HeatRec) : List (List (Option ℤ)) :=
  (pivotRows rs).map fun r => (pivotCols rs).map fun c => pivotCell rs r c

/-- `heat_df.sum().sum()`: grand total over all cells of the pivoted table. -/
def matrixSum (rs : List HeatRec) : ℤ :=
  ((pivotTable rs).map fun row => (row.map fun o => o.getD 0).sum).sum

/-! ### Sankey flows -/

structure Flow where
  src : String
  trg : String
  count : ℤ
  type : String
deriving DecidableEq

/-- `zones = list(set([d['zone'] for d in devices]))`. -/
def zonesOf (t : Tape) (c : Clock) (e : Ext) : List String :=
  setList e.hashRank ((roster t c).map (·.zone))

/-- The `status_weights` dict, in insertion order. -/
def statusWeights : List (String × ℚ) :=
  [("Moving", 0.6), ("Idling", 0.25), ("On-route", 0.1), ("Inactive", 0.05)]

def whFlows (t : Tape) (zones : List String) : List Flow :=
  zones.enum.map fun p =>
    { src := "Warehouse", trg := p.2, count := randint 50 200 (t.whU p.1), type := "dispatch" }

/-- The per-zone random total `np.random.randint(30, 150)` for zone index `zi`. -/
def zoneTotal (t : Tape) (zi : Nat) : ℤ := randint 30 150 (t.zoneTotU zi)

def zsFlows (t : Tape) (zones : List String) : List Flow :=
  zones.enum.flatMap fun p =>
    statusWeights.enum.map fun q =>
      { src := p.2
      , trg := q.2.1
      , count := pyInt ((zoneTotal t p.1 : ℚ) * q.2.2 * unif 0.8 1.2 (t.flowU p.1 q.1))
      , type := "status" }

def flows (t : Tape) (c : Clock) (e : Ext) : List Flow :=
  whFlows t (zonesOf t c e) ++ zsFlows t (zonesOf t c e)

/-! ### Warehouse events -/

/-- The `event_types` dict, in insertion order. -/
def eventTypes : List (String × ℚ) :=
  [("Departure", 0.4), ("Arrival", 0.4), ("Maintenance", 0.1), ("Inspection", 0.05), ("Alert", 0.05)]

def notable : List String := ["Maintenance", "Inspection", "Alert"]

/-- `d['status'] != 'Inactive' and 2 or 1`. -/
def deviceWeight (d : Device) : ℚ := if d.status ≠ "Inactive" then 2 else 1

structure Event where
  /-- The `"%Y-%m-%d %H:%M:%S"` timestamp, as truncated epoch seconds
  (string order on that fixed-width format is this numeric order). -/
  ts : ℤ
  event_type : String
  device_id : String
  location : String
  details : String
deriving DecidableEq

/-- The activity-weighted device selection of event `i`. -/
def pickedDevice (t : Tape) (c : Clock) (i : Nat) : Device :=
  pickCum ((roster t c).map fun d => (d, deviceWeight d))
    (t.evDevU i * ((roster t c).map deviceWeight).sum) deviceDefault

def mkEvent (t : Tape) (c : Clock) (e : Ext) (i : Nat) : Event :=
  let hoursAgo := unif 0 168 (t.evHoursU i)
  let etype := pickCum eventTypes (t.evTypeU i * (eventTypes.map (·.2)).sum) ""
  let dev := pickedDevice t c i
  { ts := ⌊c.nowSec - hoursAgo * 3600⌋
  , event_type := etype
  , device_id := dev.device_id
  , location := dev.zone
  , details := if etype ∈ notable then e.sentence i else "" }

def eventsRaw (t : Tape) (c : Clock) (e : Ext) : List Event :=
  (List.range 250).map (mkEvent t c e)

/-- The descending-timestamp order used by `sort_values(ascending=False)`. -/
def newerEq (a b : Event) : Prop := b.ts ≤ a.ts

instance : DecidableRel newerEq := fun a b => inferInstanceAs (Decidable (b.ts ≤ a.ts))

instance : IsTotal Event newerEq := ⟨fun a b => le_total b.ts a.ts⟩

instance : IsTrans Event newerEq := ⟨fun _ _ _ h h' => le_trans h' h⟩

/-- `events_df`: the event table sorted descending by timestamp. -/
def events (t : Tape) (c : Clock) (e : Ext) : List Event :=
  List.insertionSort newerEq (eventsRaw t c e)

/-! ### Summary metrics -/

def activeStatuses : List String := ["Moving", "On-route", "Idling"]

structure Summary where
  active_devices : Nat
  idling_devices : Nat
  completed_loads : ℤ
  total_idling_hr : ℚ
  avg_deliveries : ℚ
  avg_speed : ℚ
  avg_uptime : ℚ
  critical_alerts : Nat
  /-- `datetime.now()` formatted; modelled as the clock's epoch seconds. -/
  last_updated : ℚ
deriving DecidableEq

def summary (t : Tape) (c : Clock) (e : Ext) : Summary :=
  let devs := roster t c
  let pf := perf t c
  { active_devices := (devs.filter fun d => d.status ∈ activeStatuses).length
  , idling_devices := (devs.filter fun d => d.status = "Idling").length
  , completed_loads := (pf.map (·.total_deliveries)).sum
  , total_idling_hr := round1 ((matrixSum (heatRecs t c) : ℚ) / 60)
  , avg_deliveries := round1 (((pf.map (·.total_deliveries)).sum : ℚ) / (pf.length : ℚ))
  , avg_speed := round1 ((pf.map (·.avg_speed)).sum / (pf.length : ℚ))
  , avg_uptime := round1 ((pf.map (·.uptime_percent)).sum / (pf.length : ℚ))
  , critical_alerts := ((eventsRaw t c e).filter fun ev => ev.event_type = "Alert").length
  , last_updated := c.nowSec }

/-! ### The whole generator run: the seven CSV tables -/

structure Outputs where
  device_master : List Device
  performance : List Perf
  loads_by_day : List DayLoad
  heat_index : List String
  heat_columns : List String
  idle_heatmap : List (List (Option ℤ))
  sankey_flows : List Flow
  warehouse_events : List Event
  summary_metrics : Summary
deriving DecidableEq

/-- One full run of `data_gen.py`: `Tape` is the seeded random stream,
`Ext` the nondeterminism not fixed by the seeds, `c` the generation
instant. -/
def generateAll (t : Tape) (c : Clock) (e : Ext) : Outputs :=
  { device_master := roster t c
  , performance := perf t c
  , loads_by_day := loads t c
  , heat_index := pivotRows (heatRecs t c)
  , heat_columns := pivotCols (heatRecs t c)
  , idle_heatmap := pivotTable (heatRecs t c)
  , sankey_flows := flows t c e
  , warehouse_events := events t c e
  , summary_metrics := summary t c e }

/-! ### Concrete instances used to instantiate the theorems -/

/-- A concrete admissible tape: every `[0,1)` core draw is `0`, every
standard-normal draw is `0`. -/
def tape0 : Tape :=
  { cityU := fun _ => 0, latZ := fun _ => 0, lonZ := fun _ => 0, statusU := fun _ => 0
  , zoneU := fun _ => 0, maintU := fun _ => 0, perfBaseU := fun _ => 0, perfNoiseU := fun _ => 0
  , speedZ := fun _ => 0, uptimeZ := fun _ => 0, fuelZ := fun _ => 0, distU := fun _ => 0
  , loadNoiseU := fun _ => 0, idleBaseU := fun _ => 0, idleU := fun _ _ => 0, idleZ := fun _ _ => 0
  , whU := fun _ => 0, zoneTotU := fun _ => 0, flowU := fun _ _ => 0
  , evHoursU := fun _ => 0, evTypeU := fun _ => 0, evDevU := fun _ => 0 }

/-- A concrete generation instant (midday, no holiday override dates). -/
def clk0 : Clock :=
  { nowSec := 1700000000, hour := 12, weekdayAgo := fun _ => ⟨0, by norm_num⟩
  , monthAgo := fun _ => 1, dayAgo := fun _ => 1 }

def ext0 : Ext := { sentence := fun _ => "ok", hashRank := fun _ => 0 }

/-- Same seeded streams as `tape0` but the event-type draw selects
`Maintenance` (cumulative weights 0.4, 0.8, 0.9, ...). -/
def tape1 : Tape := { tape0 with evTypeU := fun _ => 0.85 }

/-- A second run with the same seeds and clock as `ext0` runs, differing only
in the state of Faker's unseeded RNG. -/
def extB : Ext := { sentence := fun _ => "xx", hashRank := fun _ => 0 }

/-- Seeded streams giving device 2 zone `Brooklyn` and every other device
zone `Manhattan`. -/
def tape3 : Tape := { tape0 with zoneU := fun i => if i = 2 then 0.2 else 0 }

/-- A hash rank putting `Manhattan` after everything else in set order. -/
def ext3 : Ext := { sentence := fun _ => "ok", hashRank := fun s => if s = "Manhattan" then 1 else 0 }

/-- Seeded streams whose zone-total draw yields `30 + ⌊(7/12)*120⌋ = 100` and
whose per-edge flow noise draw is `0` (multiplier `0.8`). -/
def tape5 : Tape := { tape0 with zoneTotU := fun _ => 7/12 }

/-- The 7 weekday labels in ascending code-point order — the column order
`DataFrame.pivot` actually produces. -/
def alphaDays : List String :=
  ["Friday", "Monday", "Saturday", "Sunday", "Thursday", "Tuesday", "Wednesday"]

/-- A pivot cell is populated with an idle-minutes value in `[0, 180]`. -/
def cellOkB (o : Option ℤ) : Bool :=
  match o with
  | some v => decide (0 ≤ v) && decide (v ≤ 180)
  | none => false

/-- The `details` contract of an event row: empty for Departure/Arrival,
non-empty for the notable types. -/
def detailsOkB (ev : Event) : Bool :=
  (!(ev.event_type == "Departure" || ev.event_type == "Arrival") || (ev.details == ""))
    && (!(notable.contains ev.event_type) || !(ev.details == ""))

/-! ## Theorems

Generic support lemmas first, then the structural facts about the generator,
then one theorem per claim (with witnesses and counterexamples). -/

set_option maxRecDepth 1000000

set_option maxHeartbeats 2000000

theorem mem_strInsert (x a : String) (l : List String) :
    a ∈ strInsert x l ↔ a = x ∨ a ∈ l := by
  induction l with
  | nil => simp [strInsert]
  | cons y ys ih =>
    by_cases h : strLeB y x
    · rw [strInsert, if_pos h]
      simp only [List.mem_cons, ih, List.mem_cons]
      tauto
    · rw [strInsert, if_neg h]
      simp only [List.mem_cons]

theorem mem_strSort (a : String) (l : List String) : a ∈ strSort l ↔ a ∈ l := by
  induction l with
  | nil => simp [strSort]
  | cons y ys ih =>
    show a ∈ strInsert y (strSort ys) ↔ _
    rw [mem_strInsert]
    simp only [List.mem_cons]
    rw [ih]

theorem hashInsert_perm (h : String → Nat) (x : String) (l : List String) :
    (hashInsert h x l).Perm (x :: l) := by
  induction l with
  | nil => simp [hashInsert]
  | cons y ys ih =>
    by_cases hc : h y ≤ h x
    · rw [hashInsert, if_pos hc]
      exact (ih.cons y).trans (List.Perm.swap x y ys)
    · rw [hashInsert, if_neg hc]

theorem hashSort_perm (h : String → Nat) (l : List String) : (hashSort h l).Perm l := by
  induction l with
  | nil => simp [hashSort]
  | cons y ys ih =>
    show (hashInsert h y (hashSort h ys)).Perm _
    exact (hashInsert_perm h y (hashSort h ys)).trans (ih.cons y)

theorem mem_firstSeenAux (a : String) (l : List String) :
    ∀ acc, a ∈ firstSeenAux l acc ↔ a ∈ l ∨ a ∈ acc := by
  induction l with
  | nil => intro acc; simp [firstSeenAux]
  | cons x xs ih =>
    intro acc
    simp only [firstSeenAux]
    split
    · rename_i h
      rw [ih]
      simp only [List.mem_cons]
      constructor
      · tauto
      · rintro ((rfl | h2) | h3) <;> tauto
    · rw [ih]
      simp only [List.mem_cons]
      tauto

theorem mem_firstSeen (a : String) (l : List String) : a ∈ firstSeen l ↔ a ∈ l := by
  rw [firstSeen, mem_firstSeenAux]
  simp

theorem firstSeenAux_nodup (l : List String) :
    ∀ acc, acc.Nodup → (firstSeenAux l acc).Nodup := by
  induction l with
  | nil => intro acc hacc; simpa [firstSeenAux] using hacc
  | cons x xs ih =>
    intro acc hacc
    simp only [firstSeenAux]
    split
    · exact ih acc hacc
    · rename_i h
      exact ih (x :: acc) (by simp [hacc, h])

theorem firstSeen_nodup (l : List String) : (firstSeen l).Nodup :=
  firstSeenAux_nodup l [] (by simp)

theorem setList_nodup (h : String → Nat) (l : List String) : (setList h l).Nodup :=
  ((hashSort_perm h (firstSeen l)).nodup_iff).mpr (firstSeen_nodup l)

theorem mem_setList (h : String → Nat) (a : String) (l : List String) :
    a ∈ setList h l ↔ a ∈ l := by
  rw [setList, (hashSort_perm h (firstSeen l)).mem_iff, mem_firstSeen]

theorem pickCum_mem {α : Type} (l : List (α × ℚ)) :
    ∀ (x : ℚ) (dflt : α), 0 ≤ x → x < (l.map (·.2)).sum →
      pickCum l x dflt ∈ l.map (·.1) := by
  induction l with
  | nil =>
    intro x dflt hx hlt
    simp only [List.map_nil, List.sum_nil] at hlt
    exact absurd hlt (not_lt.mpr hx)
  | cons p rest ih =>
    intro x dflt hx hlt
    obtain ⟨a, w⟩ := p
    simp only [pickCum]
    split
    · simp
    · rename_i h
      have hw : w ≤ x := le_of_not_lt h
      simp only [List.map_cons, List.sum_cons] at hlt
      have := ih (x - w) dflt (by linarith) (by linarith)
      simp only [List.map_cons, List.mem_cons]
      exact Or.inr this

theorem length_le_sum_deviceWeight (l : List Device) :
    (l.length : ℚ) ≤ (l.map deviceWeight).sum := by
  induction l with
  | nil => simp
  | cons d ds ih =>
    have hw : (1 : ℚ) ≤ deviceWeight d := by
      rw [deviceWeight]
      split <;> norm_num
    simp only [List.length_cons, List.map_cons, List.sum_cons, Nat.cast_succ]
    linarith

/-! ### Structural facts about the generated tables -/

theorem roster_map_id (t : Tape) (c : Clock) :
    (roster t c).map (·.device_id) = (List.range' 1 75).map deviceId := rfl

theorem roster_take50_map_id (t : Tape) (c : Clock) :
    ((roster t c).take 50).map (·.device_id) = (List.range' 1 50).map deviceId := rfl

theorem roster_map_zone (t : Tape) (c : Clock) :
    (roster t c).map (·.zone) = (List.range' 1 75).map (fun i => (mkDevice t c i).zone) := rfl

theorem heatRecs_map_id (t : Tape) (c : Clock) :
    (heatRecs t c).map (·.device_id)
      = (List.range' 1 50).flatMap (fun i => List.replicate 7 (deviceId i)) := rfl

theorem heatRecs_map_day (t : Tape) (c : Clock) :
    (heatRecs t c).map (·.day) = (List.range' 1 50).flatMap (fun _ => days) := rfl

theorem heatRecs_map_key (t : Tape) (c : Clock) :
    (heatRecs t c).map (fun r => (r.device_id, r.day))
      = ((List.range' 1 50).map deviceId).product days := rfl

theorem pivotRows_eq (t : Tape) (c : Clock) :
    pivotRows (heatRecs t c) = (List.range' 1 50).map deviceId := by
  unfold pivotRows
  rw [heatRecs_map_id]
  decide

theorem pivotCols_eq (t : Tape) (c : Clock) : pivotCols (heatRecs t c) = alphaDays := by
  unfold pivotCols
  rw [heatRecs_map_day]
  decide

theorem heatRecs_key_nodup (t : Tape) (c : Clock) :
    ((heatRecs t c).map fun r => (r.device_id, r.day)).Nodup := by
  rw [heatRecs_map_key]
  exact List.Nodup.product (by decide) (by decide)

/-- The clamp-then-truncate at the end of every heatmap cell keeps the stored
integer in `[0, 180]`, whatever the noise draw was. -/
theorem pyInt_clamp_bounds (x : ℚ) :
    0 ≤ pyInt (clamp 0 180 x) ∧ pyInt (clamp 0 180 x) ≤ 180 := by
  have h0 : (0 : ℚ) ≤ clamp 0 180 x := le_max_left 0 _
  have h180 : clamp 0 180 x ≤ 180 := max_le (by norm_num) (min_le_left _ _)
  rw [pyInt, if_pos h0]
  constructor
  · exact Int.le_floor.mpr (by exact_mod_cast h0)
  · have hf : ⌊clamp 0 180 x⌋ ≤ ⌊(180 : ℚ)⌋ := Int.floor_le_floor h180
    have : ⌊(180 : ℚ)⌋ = 180 := by norm_num
    omega

theorem heat_mem_bounds (t : Tape) (c : Clock) :
    ∀ x ∈ heatRecs t c, 0 ≤ x.idle_minutes ∧ x.idle_minutes ≤ 180 := by
  intro x hx
  simp only [heatRecs, List.mem_flatMap, List.mem_map] at hx
  obtain ⟨i, -, j, -, rfl⟩ := hx
  exact pyInt_clamp_bounds _

theorem mem_alphaDays_mem_days : ∀ z ∈ alphaDays, z ∈ days := by decide

/-- Every (row, column) position of the pivoted table is backed by exactly one
long-format record; `find?` therefore succeeds on it. -/
theorem pivot_key_present (t : Tape) (c : Clock) (r cday : String)
    (hr : r ∈ pivotRows (heatRecs t c)) (hc : cday ∈ pivotCols (heatRecs t c)) :
    (r, cday) ∈ (heatRecs t c).map (fun x => (x.device_id, x.day)) := by
  rw [pivotRows_eq] at hr
  rw [pivotCols_eq] at hc
  rw [heatRecs_map_key]
  exact List.pair_mem_product.mpr ⟨hr, mem_alphaDays_mem_days cday hc⟩

theorem pickedDevice_mem (t : Tape) (c : Clock) (i : Nat)
    (h0 : 0 ≤ t.evDevU i) (h1 : t.evDevU i < 1) : pickedDevice t c i ∈ roster t c := by
  have hlen : ((roster t c).length : ℚ) = 75 := by
    simp [roster, numDevices]
  have hsum : (0 : ℚ) < ((roster t c).map deviceWeight).sum := by
    have := length_le_sum_deviceWeight (roster t c)
    rw [hlen] at this
    linarith
  have hmaps : (((roster t c).map fun d => (d, deviceWeight d)).map (·.2)).sum
      = ((roster t c).map deviceWeight).sum := by
    rw [List.map_map]
    rfl
  have hmem := pickCum_mem ((roster t c).map fun d => (d, deviceWeight d))
    (t.evDevU i * ((roster t c).map deviceWeight).sum) deviceDefault
    (mul_nonneg h0 hsum.le)
    (by rw [hmaps]; exact (mul_lt_iff_lt_one_left hsum).mpr h1)
  rw [List.map_map] at hmem
  simpa [Function.comp] using hmem

/-! ### Claim theorems -/

/-- Claim C2, counterexample: the pivoted heatmap's column labels are *not*
Monday..Sunday — for the concrete run `tape0`/`clk0` they come out in
ascending code-point order Friday, Monday, Saturday, Sunday, Thursday,
Tuesday, Wednesday. -/
theorem claim2_counterexample :
    pivotCols (heatRecs tape0 clk0) ≠ days
      ∧ pivotCols (heatRecs tape0 clk0) = alphaDays := by
  constructor
  · rw [pivotCols_eq]
    decide
  · exact pivotCols_eq tape0 clk0

/-- Claim C2 (amended): the pivoted idle-heatmap table has exactly the first
50 roster devices as rows, in roster order, the 7 weekday columns in
ascending code-point order (not Monday..Sunday), every cell populated exactly
once, and every idle-minutes value an integer in `[0, 180]`. -/
theorem claim2_heatmap_shape (t : Tape) (c : Clock) :
    pivotRows (heatRecs t c) = ((roster t c).take 50).map (·.device_id)
      ∧ pivotCols (heatRecs t c) = alphaDays
      ∧ (pivotTable (heatRecs t c)).length = 50
      ∧ ((pivotTable (heatRecs t c)).all fun row => row.length == 7) = true
      ∧ ((pivotTable (heatRecs t c)).all fun row => row.all cellOkB) = true
      ∧ (((heatRecs t c).map fun r => (r.device_id, r.day)).Nodup) := by
  refine ⟨(pivotRows_eq t c).trans (roster_take50_map_id t c).symm,
    pivotCols_eq t c, ?_, ?_, ?_, heatRecs_key_nodup t c⟩
  · rw [pivotTable, List.length_map, pivotRows_eq]
    simp [List.length_range']
  · rw [List.all_eq_true]
    intro row hrow
    rw [pivotTable, List.mem_map] at hrow
    obtain ⟨r, -, rfl⟩ := hrow
    rw [List.length_map, pivotCols_eq]
    decide
  · rw [List.all_eq_true]
    intro row hrow
    rw [pivotTable, List.mem_map] at hrow
    obtain ⟨r, hr, rfl⟩ := hrow
    rw [List.all_eq_true]
    intro o ho
    rw [List.mem_map] at ho
    obtain ⟨cday, hc, rfl⟩ := ho
    have hkey := pivot_key_present t c r cday hr hc
    rw [List.mem_map] at hkey
    obtain ⟨x, hx, hxy⟩ := hkey
    have hpx : (x.device_id == r && x.day == cday) = true := by
      have h1 : x.device_id = r := congrArg Prod.fst hxy
      have h2 : x.day = cday := congrArg Prod.snd hxy
      simp [h1, h2]
    have hsome : ((heatRecs t c).find? fun y => y.device_id == r && y.day == cday).isSome :=
      List.find?_isSome.mpr ⟨x, hx, hpx⟩
    obtain ⟨y, hy⟩ := Option.isSome_iff_exists.mp hsome
    have hbound := heat_mem_bounds t c y (List.mem_of_find?_eq_some hy)
    rw [pivotCell, hy]
    simp only [Option.map_some, cellOkB]
    simp [hbound.1, hbound.2]

/-- Claim C4: the daily-load table has exactly 28 rows, pairwise-distinct
dates (one per day of the trailing window), and the week bucket is determined
by the day offset `i` alone: `current` for `i ≤ 6`, `last` for `7 ≤ i ≤ 13`,
`older` for `i ≥ 14`. -/
theorem claim4_daily_load (t : Tape) (c : Clock) :
    (loads t c).length = 28
      ∧ ((loads t c).map (·.date)).Nodup
      ∧ (loads t c).map (·.week)
          = (List.range 28).map
              (fun i => if i ≤ 6 then "current" else if i ≤ 13 then "last" else "older") := by
  refine ⟨by simp [loads], ?_, rfl⟩
  have hdates : (loads t c).map (·.date)
      = (List.range 28).map (fun i : ℕ => c.nowSec - (i : ℚ) * 86400) := rfl
  rw [hdates]
  refine (List.nodup_range 28).map ?_
  intro a b hab
  have h1 : (a : ℚ) * 86400 = (b : ℚ) * 86400 := by
    simp only at hab
    linarith
  have h2 : (a : ℚ) = (b : ℚ) := mul_right_cancel₀ (by norm_num) h1
  exact_mod_cast h2

/-- Claim C6: the summary's `completed_loads` is the sum of the performance
table's delivery column, and `total_idling_hr` is the heatmap grand total
divided by 60, rounded to 1 decimal. -/
theorem claim6_summary_consistency (t : Tape) (c : Clock) (e : Ext) :
    (summary t c e).completed_loads = ((perf t c).map (·.total_deliveries)).sum
      ∧ (summary t c e).total_idling_hr
          = round1 ((matrixSum (heatRecs t c) : ℚ) / 60) :=
  ⟨rfl, rfl⟩

/-- Claim C7: roster identifiers (`D` + zero-padded sequence number) are
pairwise distinct, and the performance table's identifier column is exactly
the roster's identifier column — one record per device, in roster order. -/
theorem claim7_roster_perf_bijection (t : Tape) (c : Clock) :
    (((roster t c).map (·.device_id)).Nodup)
      ∧ (perf t c).map (·.device_id) = (roster t c).map (·.device_id) := by
  constructor
  · rw [roster_map_id]
    decide
  · rfl

/-- Claim C9: the written event table has exactly 250 rows and is sorted in
descending chronological order: each row's timestamp is ≥ the next row's. -/
theorem claim9_events_sorted (t : Tape) (c : Clock) (e : Ext) :
    (events t c e).length = 250 ∧ List.Chain' newerEq (events t c e) := by
  constructor
  · rw [events, (List.perm_insertionSort newerEq (eventsRaw t c e)).length_eq,
      eventsRaw, List.length_map, List.length_range]
  · rw [events, List.chain'_iff_pairwise]
    exact List.sorted_insertionSort newerEq (eventsRaw t c e)

/-- Claim C3 (amended): the flow-graph synthesizer builds its edges over the
distinct zone set of the roster — duplicates removed — but the enumeration
order is the hash-dependent `set` iteration order, not first-seen order. -/
theorem claim3_zones_distinct (t : Tape) (c : Clock) (e : Ext) :
    (zonesOf t c e).Nodup
      ∧ ∀ z, z ∈ zonesOf t c e ↔ z ∈ (roster t c).map (·.zone) :=
  ⟨setList_nodup e.hashRank _, fun z => mem_setList e.hashRank z _⟩

theorem mkDevice_zone_tape3 (i : Nat) :
    (mkDevice tape3 clk0 i).zone = if i = 2 then "Brooklyn" else "Manhattan" := by
  by_cases h : i = 2
  · subst h
    norm_num [mkDevice, pickCum, cityTable, pyChoice, tape3, tape0, cityDefault]
  · rw [if_neg h]
    norm_num [mkDevice, pickCum, cityTable, pyChoice, tape3, tape0, cityDefault, h]

theorem roster_zones_tape3 :
    (roster tape3 clk0).map (·.zone)
      = (List.range' 1 75).map (fun i => if i = 2 then "Brooklyn" else "Manhattan") := by
  rw [roster_map_zone]
  exact List.map_congr_left fun i _ => mkDevice_zone_tape3 i

/-- Claim C3, counterexample: in a run where devices carry zones Manhattan
(first seen) and Brooklyn, a hash order ranking `Manhattan` last makes
`list(set(...))` enumerate `Brooklyn` before `Manhattan` — not first-seen
order. -/
theorem claim3_counterexample :
    zonesOf tape3 clk0 ext3 = ["Brooklyn", "Manhattan"]
      ∧ firstSeen ((roster tape3 clk0).map (·.zone)) = ["Manhattan", "Brooklyn"]
      ∧ zonesOf tape3 clk0 ext3 ≠ firstSeen ((roster tape3 clk0).map (·.zone)) := by
  have hz := roster_zones_tape3
  refine ⟨?_, ?_, ?_⟩
  · rw [zonesOf, hz]
    decide
  · rw [hz]
    decide
  · rw [zonesOf, hz]
    decide

theorem mkDevice_zone_tape5 (i : Nat) : (mkDevice tape5 clk0 i).zone = "Manhattan" := by
  norm_num [mkDevice, pickCum, cityTable, pyChoice, tape5, tape0, cityDefault]

theorem zonesOf_tape5 : zonesOf tape5 clk0 ext0 = ["Manhattan"] := by
  rw [zonesOf, roster_map_zone, List.map_congr_left fun i _ => mkDevice_zone_tape5 i]
  decide

/-- Claim C5: Zone→Status flows are not conserved.  In the concrete run
`tape5` the zone total draw is 100, every per-edge noise draw is admissible
(`0 ∈ [0,1)`, multiplier 0.8), and the four generated Zone→Status counts are
48, 20, 8, 4 — summing to 80, not the drawn total of 100. -/
theorem claim5_flow_non_conservation :
    (((flows tape5 clk0 ext0).filter fun f => f.type == "status" && f.src == "Manhattan").map
        (·.count)) = [48, 20, 8, 4]
      ∧ zoneTotal tape5 0 = 100
      ∧ ((0 : ℚ) ≤ tape5.zoneTotU 0 ∧ tape5.zoneTotU 0 < 1)
      ∧ (∀ si : Nat, (0 : ℚ) ≤ tape5.flowU 0 si ∧ tape5.flowU 0 si < 1)
      ∧ (((flows tape5 clk0 ext0).filter fun f => f.type == "status" && f.src == "Manhattan").map
          (·.count)).sum ≠ zoneTotal tape5 0 := by
  have hfl : flows tape5 clk0 ext0
      = whFlows tape5 ["Manhattan"] ++ zsFlows tape5 ["Manhattan"] := by
    rw [flows, zonesOf_tape5]
  have hcounts : (((flows tape5 clk0 ext0).filter
      fun f => f.type == "status" && f.src == "Manhattan").map (·.count)) = [48, 20, 8, 4] := by
    rw [hfl]
    norm_num [whFlows, zsFlows, statusWeights, List.enum, List.enumFrom, zoneTotal,
      randint, pyInt, unif, tape5, tape0]
    decide
  refine ⟨hcounts, ?_, ?_, ?_, ?_⟩
  · norm_num [zoneTotal, randint, tape5, tape0]
  · norm_num [tape5, tape0]
  · intro si
    norm_num [tape5, tape0]
  · rw [hcounts]
    norm_num [zoneTotal, randint, tape5, tape0]

/-- Claim C10: every event row's location is the zone of the roster device it
references (device selection returns a roster element, and both `device_id`
and `location` are copied from it). -/
theorem claim10_event_location_consistent (t : Tape) (c : Clock) (e : Ext)
    (h : ∀ i, 0 ≤ t.evDevU i ∧ t.evDevU i < 1) :
    ((events t c e).all fun ev =>
      (roster t c).any fun d => d.device_id == ev.device_id && d.zone == ev.location) = true := by
  rw [List.all_eq_true]
  intro ev hev
  rw [events, (List.perm_insertionSort newerEq (eventsRaw t c e)).mem_iff] at hev
  rw [eventsRaw, List.mem_map] at hev
  obtain ⟨i, -, rfl⟩ := hev
  rw [List.any_eq_true]
  refine ⟨pickedDevice t c i, pickedDevice_mem t c i (h i).1 (h i).2, ?_⟩
  have h1 : (mkEvent t c e i).device_id = (pickedDevice t c i).device_id := rfl
  have h2 : (mkEvent t c e i).location = (pickedDevice t c i).zone := rfl
  rw [h1, h2]
  simp

theorem claim10_event_location_consistent_witness :
    ((events tape0 clk0 ext0).all fun ev =>
      (roster tape0 clk0).any fun d =>
        d.device_id == ev.device_id && d.zone == ev.location) = true :=
  claim10_event_location_consistent tape0 clk0 ext0
    (fun _ => ⟨le_refl 0, by norm_num [tape0]⟩)

/-- Claim C8: an event's `details` is empty for Departure/Arrival and
non-empty for Maintenance/Inspection/Alert (Faker sentences are non-empty). -/
theorem claim8_details_by_type (t : Tape) (c : Clock) (e : Ext)
    (h : ∀ n, e.sentence n ≠ "") : ((events t c e).all detailsOkB) = true := by
  rw [List.all_eq_true]
  intro ev hev
  rw [events, (List.perm_insertionSort newerEq (eventsRaw t c e)).mem_iff] at hev
  rw [eventsRaw, List.mem_map] at hev
  obtain ⟨i, -, rfl⟩ := hev
  have hdet : (mkEvent t c e i).details
      = if (mkEvent t c e i).event_type ∈ notable then e.sentence i else "" := rfl
  rw [detailsOkB]
  by_cases hm : (mkEvent t c e i).event_type ∈ notable
  · rw [hdet, if_pos hm]
    have hne : (e.sentence i == "") = false := beq_eq_false_iff_ne.mpr (h i)
    have hm' : (mkEvent t c e i).event_type = "Maintenance"
        ∨ (mkEvent t c e i).event_type = "Inspection"
        ∨ (mkEvent t c e i).event_type = "Alert" := by
      simpa [notable] using hm
    rcases hm' with het | het | het <;> rw [het] <;> simp [hne, notable]
  · rw [hdet, if_neg hm]
    simp [hm]

theorem claim8_details_by_type_witness :
    ((events tape0 clk0 ext0).all detailsOkB) = true :=
  claim8_details_by_type tape0 clk0 ext0 (fun _ => show ("ok" : String) ≠ "" by decide)

theorem mkEvent_type_tape1 (e : Ext) (i : Nat) :
    (mkEvent tape1 clk0 e i).event_type = "Maintenance" := by
  have hty : (mkEvent tape1 clk0 e i).event_type
      = pickCum eventTypes (tape1.evTypeU i * (eventTypes.map (·.2)).sum) "" := rfl
  rw [hty]
  norm_num [pickCum, eventTypes, tape1, tape0]

theorem mkEvent_details_tape1 (e : Ext) (i : Nat) :
    (mkEvent tape1 clk0 e i).details = e.sentence i := by
  have hdet : (mkEvent tape1 clk0 e i).details
      = if (mkEvent tape1 clk0 e i).event_type ∈ notable then e.sentence i else "" := rfl
  rw [hdet, mkEvent_type_tape1,
    if_pos (by decide : ("Maintenance" : String) ∈ notable)]

theorem events_tape1_details (e : Ext) (s : String) (hs : ∀ i, e.sentence i = s) :
    ∀ ev ∈ events tape1 clk0 e, ev.details = s := by
  intro ev hev
  rw [events, (List.perm_insertionSort newerEq (eventsRaw tape1 clk0 e)).mem_iff] at hev
  rw [eventsRaw, List.mem_map] at hev
  obtain ⟨i, -, rfl⟩ := hev
  rw [mkEvent_details_tape1 e i, hs i]

/-- Claim C1: two runs with the seeded streams (seed 42) and the generation
instant both fixed still produce different `warehouse_events` tables when
Faker's own RNG — which `random.seed(42)` does not seed — is in a different
state: every notable event's `details` text differs, so the CSV bytes
differ. -/
theorem claim1_replay_not_byte_identical :
    (generateAll tape1 clk0 ext0).warehouse_events
      ≠ (generateAll tape1 clk0 extB).warehouse_events := by
  intro hcontra
  have hlen : (events tape1 clk0 extB).length = 250 := by
    rw [events, (List.perm_insertionSort newerEq (eventsRaw tape1 clk0 extB)).length_eq,
      eventsRaw, List.length_map, List.length_range]
  obtain ⟨ev, hev⟩ : ∃ ev, ev ∈ events tape1 clk0 extB :=
    List.exists_mem_of_length_pos (by rw [hlen]; norm_num)
  have hxx : ev.details = "xx" := events_tape1_details extB "xx" (fun _ => rfl) ev hev
  have hok : ev.details = "ok" := by
    have h2 : events tape1 clk0 ext0 = events tape1 clk0 extB := hcontra
    exact events_tape1_details ext0 "ok" (fun _ => rfl) ev (h2 ▸ hev)
  rw [hxx] at hok
  exact absurd hok (by decide)

end DeliveryGen
